import Mathlib

/-!
Verification development for the a2a-opt repository (Objective-Plan-Task
extension of the A2A protocol).

The TypeScript sources are shallowly embedded:
* the three insertion-ordered JavaScript Map fields of InMemoryOPTStore
  become association lists whose operations mirror Map.set / Map.get /
  Map.delete / Map.has semantics (set replaces in place, otherwise appends);
* wall-clock ISO timestamps become a Nat logical clock that the store
  advances once per mutating call (each call evaluates the timestamp
  helper exactly once and reuses the value);
* generateId (timestamp plus randomness in the source, opaque and unique)
  becomes a counter-based id of shape prefix-n threaded through the store;
* thrown OPTError values become an Except error component, and each
  handler returns the store it produced; every throw site in the source
  precedes any store mutation, so the error branches return the incoming
  store unchanged, matching the source where a thrown error aborts the
  call before the store is touched.
-/

namespace OPT

/-- Objective status enum from types.ts. -/
inductive ObjectiveStatus where
  | submitted
  | planning
  | working
  | blocked
  | completed
  | failed
  | canceled
deriving DecidableEq, Repr, Fintype

/-- Plan status enum from types.ts. -/
inductive PlanStatus where
  | pending
  | working
  | blocked
  | completed
  | failed
  | skipped
deriving DecidableEq, Repr, Fintype

/-- String form of an objective status, as it appears in the JSON values. -/
def ObjectiveStatus.name : ObjectiveStatus → String
  | .submitted => "submitted"
  | .planning => "planning"
  | .working => "working"
  | .blocked => "blocked"
  | .completed => "completed"
  | .failed => "failed"
  | .canceled => "canceled"

/-- String form of a plan status, as it appears in the JSON values. -/
def PlanStatus.name : PlanStatus → String
  | .pending => "pending"
  | .working => "working"
  | .blocked => "blocked"
  | .completed => "completed"
  | .failed => "failed"
  | .skipped => "skipped"

/-- VALID_OBJECTIVE_TRANSITIONS table from the handler source. -/
def VALID_OBJECTIVE_TRANSITIONS : ObjectiveStatus → List ObjectiveStatus
  | .submitted => [.planning, .working, .canceled]
  | .planning => [.working, .blocked, .failed, .canceled]
  | .working => [.blocked, .completed, .failed, .canceled]
  | .blocked => [.planning, .working, .failed, .canceled]
  | .completed => []
  | .failed => [.submitted, .planning]
  | .canceled => [.submitted]

/-- VALID_PLAN_TRANSITIONS table from the handler source. -/
def VALID_PLAN_TRANSITIONS : PlanStatus → List PlanStatus
  | .pending => [.working, .skipped]
  | .working => [.blocked, .completed, .failed]
  | .blocked => [.working, .failed, .skipped]
  | .completed => []
  | .failed => [.pending, .working]
  | .skipped => []

/-- isValidObjectiveTransition from the handler source: self loops are
always legal, otherwise the target must be listed in the table row. -/
def isValidObjectiveTransition (src dst : ObjectiveStatus) : Bool :=
  if src == dst then true
  else (VALID_OBJECTIVE_TRANSITIONS src).contains dst

/-- isValidPlanTransition from the handler source. -/
def isValidPlanTransition (src dst : PlanStatus) : Bool :=
  if src == dst then true
  else (VALID_PLAN_TRANSITIONS src).contains dst

/-- PlanTask record from types.ts. Metadata bags are modelled as opaque
string-to-string association lists. -/
structure PlanTask where
  id : String
  planId : String
  objectiveId : String
  name : String
  description : Option String
  taskIndex : Nat
  dependencies : List String
  a2aTaskId : Option String
  status : Option String
  metadata : List (String × String)
deriving DecidableEq, Repr

/-- Plan record from types.ts. The tasks field is tri-state as in the
source: absent (none), present and empty, or present and populated. -/
structure Plan where
  id : String
  objectiveId : String
  name : String
  description : Option String
  status : PlanStatus
  tasks : Option (List PlanTask)
  dependencies : List String
  metadata : List (String × String)
  createdAt : Nat
  updatedAt : Nat
deriving DecidableEq, Repr

/-- Objective record from types.ts, with a tri-state plans field. -/
structure Objective where
  id : String
  name : String
  description : Option String
  status : ObjectiveStatus
  plans : Option (List Plan)
  metadata : List (String × String)
  createdAt : Nat
  updatedAt : Nat
deriving DecidableEq, Repr

/-- Lookup in an insertion-ordered map, as JavaScript Map.get. -/
def mapGet {α : Type} (m : List (String × α)) (k : String) : Option α :=
  (m.find? (fun p => p.1 == k)).map Prod.snd

/-- Key-presence test, as JavaScript Map.has. -/
def mapHas {α : Type} (m : List (String × α)) (k : String) : Bool :=
  m.any (fun p => p.1 == k)

/-- Insertion or in-place replacement, as JavaScript Map.set: an existing
key keeps its position, a new key is appended. -/
def mapSet {α : Type} (m : List (String × α)) (k : String) (v : α) :
    List (String × α) :=
  if mapHas m k then m.map (fun p => if p.1 == k then (k, v) else p)
  else m ++ [(k, v)]

/-- Removal, as JavaScript Map.delete (result state only). -/
def mapDelete {α : Type} (m : List (String × α)) (k : String) :
    List (String × α) :=
  m.filter (fun p => !(p.1 == k))

/-- State of InMemoryOPTStore: the three entity maps plus the logical
clock and the id counter that stand in for wall time and randomness. -/
structure Store where
  objectives : List (String × Objective)
  plans : List (String × Plan)
  tasks : List (String × PlanTask)
  clock : Nat
  nextIdNum : Nat
deriving DecidableEq, Repr

/-- Empty store, as a freshly constructed InMemoryOPTStore. -/
def emptyStore : Store :=
  { objectives := [], plans := [], tasks := [], clock := 0, nextIdNum := 0 }

/-- generateId with a prefix: the source builds prefix-opaque from a
base-36 timestamp and randomness; here the opaque part is a fresh
counter value behind a letter, preserving that a generated id never
consists of the prefix followed by decimal digits only (the base-36
encoding of current wall time always contains a letter). -/
def generateId (pfx : String) (n : Nat) : String :=
  pfx ++ "-t" ++ Nat.repr n

/-- createObjective from store.ts: fresh id with prefix obj, status
submitted, present-and-empty plans list, both timestamps set to now. -/
def createObjective (s : Store) (name : String) (description : Option String)
    (metadata : Option (List (String × String))) : Objective × Store :=
  let now := s.clock
  let o : Objective :=
    { id := generateId "obj" s.nextIdNum
      name := name
      description := description
      status := .submitted
      plans := some []
      metadata := metadata.getD []
      createdAt := now
      updatedAt := now }
  (o, { s with objectives := mapSet s.objectives o.id o
               clock := s.clock + 1
               nextIdNum := s.nextIdNum + 1 })

/-- getTasksForPlan from store.ts: all tasks whose planId matches, sorted
by taskIndex ascending (stable sort, as Array.prototype.sort). -/
def getTasksForPlan (s : Store) (planId : String) : List PlanTask :=
  ((s.tasks.map Prod.snd).filter (fun t => t.planId == planId)).insertionSort
    (fun a b => a.taskIndex ≤ b.taskIndex)

/-- getPlansForObjective from store.ts: all plans whose objectiveId
matches, each with its tasks populated, sorted by createdAt ascending. -/
def getPlansForObjective (s : Store) (objectiveId : String) : List Plan :=
  (((s.plans.map Prod.snd).filter (fun p => p.objectiveId == objectiveId)).map
      (fun p => { p with tasks := some (getTasksForPlan s p.id) })).insertionSort
    (fun a b => a.createdAt ≤ b.createdAt)

/-- getObjective from store.ts: map lookup with the plans collection
populated; absent ids give none. -/
def getObjective (s : Store) (id : String) : Option Objective :=
  (mapGet s.objectives id).map
    (fun o => { o with plans := some (getPlansForObjective s id) })

/-- Result shape of listObjectives from types.ts. -/
structure ListObjectivesResponse where
  objectives : List Objective
  nextPageToken : Option String
  totalSize : Nat
deriving DecidableEq, Repr

/-- Numeric value of a digit string, as parseInt applied to a string of
decimal digits. -/
def digitsToNat (cs : List Char) : Nat :=
  cs.foldl (fun n c => n * 10 + (c.toNat - 48)) 0

/-- parseInt with radix 10 as used on page tokens: the longest leading
run of decimal digits; none models the NaN result when no digit leads.
An Array.prototype.slice index that is NaN behaves as 0, and a NaN
bound makes every numeric comparison false, which the caller below
reproduces explicitly. -/
def parseInt10 (tok : String) : Option Nat :=
  let digits := tok.toList.takeWhile Char.isDigit
  if digits.isEmpty then none else some (digitsToNat digits)

/-- Objectives of a store that pass the status filter of a list call, in
map insertion order (the filter step of listObjectives). -/
def filteredObjectives (s : Store) (status : Option ObjectiveStatus) :
    List Objective :=
  match status with
  | some st => (s.objectives.map Prod.snd).filter (fun o => o.status == st)
  | none => s.objectives.map Prod.snd

instance : IsTotal Objective (fun a b => b.createdAt ≤ a.createdAt) :=
  ⟨fun a b => Nat.le_total b.createdAt a.createdAt⟩

instance : IsTrans Objective (fun a b => b.createdAt ≤ a.createdAt) :=
  ⟨fun _ _ _ h1 h2 => Nat.le_trans h2 h1⟩

/-- Filtered objectives in descending creation order, the stable sort
step of listObjectives (Array.prototype.sort with the subtraction
comparator on creation times). -/
def sortedObjectives (s : Store) (status : Option ObjectiveStatus) :
    List Objective :=
  (filteredObjectives s status).insertionSort
    (fun a b => b.createdAt ≤ a.createdAt)

/-- listObjectives from store.ts: filter by exact status when given, sort
by createdAt descending (stable), slice a page of pageSize (default 10)
starting at the numeric pageToken offset, and report a next token
exactly when the slice end is strictly before the end of the list. -/
def listObjectives (s : Store) (status : Option ObjectiveStatus)
    (pageSize : Option Nat) (pageToken : Option String) :
    ListObjectivesResponse :=
  let sorted := sortedObjectives s status
  let size := pageSize.getD 10
  match pageToken with
  | none =>
      { objectives := (sorted.drop 0).take size
        nextPageToken :=
          if 0 + size < sorted.length then some (Nat.repr (0 + size)) else none
        totalSize := sorted.length }
  | some tok =>
      match parseInt10 tok with
      | some startIndex =>
          { objectives := (sorted.drop startIndex).take size
            nextPageToken :=
              if startIndex + size < sorted.length
              then some (Nat.repr (startIndex + size)) else none
            totalSize := sorted.length }
      | none =>
          -- NaN offset: slice with NaN bounds is empty and the
          -- comparison NaN < length is false.
          { objectives := []
            nextPageToken := none
            totalSize := sorted.length }

/-- Field set a caller may pass to updateObjective: any subset of the
Objective fields (the store receives the whole update object and the
source spreads it over the stored record). -/
structure ObjectiveUpdates where
  id : Option String := none
  name : Option String := none
  description : Option String := none
  status : Option ObjectiveStatus := none
  plans : Option (Option (List Plan)) := none
  metadata : Option (List (String × String)) := none
  createdAt : Option Nat := none
  updatedAt : Option Nat := none
deriving DecidableEq, Repr

/-- Spread of the supplied update fields over a stored Objective, as the
object spread in updateObjective before the fixed overrides. -/
def spreadObjective (o : Objective) (u : ObjectiveUpdates) : Objective :=
  { id := u.id.getD o.id
    name := u.name.getD o.name
    description := match u.description with | some d => some d | none => o.description
    status := u.status.getD o.status
    plans := u.plans.getD o.plans
    metadata := u.metadata.getD o.metadata
    createdAt := u.createdAt.getD o.createdAt
    updatedAt := u.updatedAt.getD o.updatedAt }

/-- updateObjective from store.ts: spread the updates, then force id and
createdAt back to the stored values and refresh updatedAt. Unknown ids
give none and leave the store as it was. -/
def updateObjective (s : Store) (id : String) (u : ObjectiveUpdates) :
    Option Objective × Store :=
  match mapGet s.objectives id with
  | none => (none, s)
  | some o =>
      let updated : Objective :=
        { spreadObjective o u with
            id := o.id
            createdAt := o.createdAt
            updatedAt := s.clock }
      (some updated,
       { s with objectives := mapSet s.objectives id updated
                clock := s.clock + 1 })

/-- Field set a caller may pass to updatePlan. -/
structure PlanUpdates where
  id : Option String := none
  objectiveId : Option String := none
  name : Option String := none
  description : Option String := none
  status : Option PlanStatus := none
  tasks : Option (Option (List PlanTask)) := none
  dependencies : Option (List String) := none
  metadata : Option (List (String × String)) := none
  createdAt : Option Nat := none
  updatedAt : Option Nat := none
deriving DecidableEq, Repr

/-- Spread of the supplied update fields over a stored Plan. -/
def spreadPlan (p : Plan) (u : PlanUpdates) : Plan :=
  { id := u.id.getD p.id
    objectiveId := u.objectiveId.getD p.objectiveId
    name := u.name.getD p.name
    description := match u.description with | some d => some d | none => p.description
    status := u.status.getD p.status
    tasks := u.tasks.getD p.tasks
    dependencies := u.dependencies.getD p.dependencies
    metadata := u.metadata.getD p.metadata
    createdAt := u.createdAt.getD p.createdAt
    updatedAt := u.updatedAt.getD p.updatedAt }

/-- updatePlan from store.ts: spread, then force id, objectiveId and
createdAt back and refresh updatedAt. -/
def updatePlan (s : Store) (id : String) (u : PlanUpdates) :
    Option Plan × Store :=
  match mapGet s.plans id with
  | none => (none, s)
  | some p =>
      let updated : Plan :=
        { spreadPlan p u with
            id := p.id
            objectiveId := p.objectiveId
            createdAt := p.createdAt
            updatedAt := s.clock }
      (some updated,
       { s with plans := mapSet s.plans id updated
                clock := s.clock + 1 })

/-- Field set a caller may pass to updatePlanTask. -/
structure PlanTaskUpdates where
  id : Option String := none
  planId : Option String := none
  objectiveId : Option String := none
  name : Option String := none
  description : Option String := none
  taskIndex : Option Nat := none
  dependencies : Option (List String) := none
  a2aTaskId : Option String := none
  status : Option String := none
  metadata : Option (List (String × String)) := none
deriving DecidableEq, Repr

/-- Spread of the supplied update fields over a stored PlanTask. -/
def spreadPlanTask (t : PlanTask) (u : PlanTaskUpdates) : PlanTask :=
  { id := u.id.getD t.id
    planId := u.planId.getD t.planId
    objectiveId := u.objectiveId.getD t.objectiveId
    name := u.name.getD t.name
    description := match u.description with | some d => some d | none => t.description
    taskIndex := u.taskIndex.getD t.taskIndex
    dependencies := u.dependencies.getD t.dependencies
    a2aTaskId := match u.a2aTaskId with | some a => some a | none => t.a2aTaskId
    status := match u.status with | some a => some a | none => t.status
    metadata := u.metadata.getD t.metadata }

/-- updatePlanTask from store.ts: spread, then force id, planId and
objectiveId back to the stored values; PlanTask has no timestamps. -/
def updatePlanTask (s : Store) (id : String) (u : PlanTaskUpdates) :
    Option PlanTask × Store :=
  match mapGet s.tasks id with
  | none => (none, s)
  | some t =>
      let updated : PlanTask :=
        { spreadPlanTask t u with
            id := t.id
            planId := t.planId
            objectiveId := t.objectiveId }
      (some updated, { s with tasks := mapSet s.tasks id updated })

/-- deletePlan from store.ts: false for an unknown id, otherwise remove
every task of the plan (by the ids reported by getTasksForPlan) and the
plan itself. -/
def deletePlan (s : Store) (id : String) : Bool × Store :=
  if mapHas s.plans id then
    let tasks := getTasksForPlan s id
    (true,
     { s with tasks := tasks.foldl (fun m t => mapDelete m t.id) s.tasks
              plans := mapDelete s.plans id })
  else (false, s)

/-- deleteObjective from store.ts: false for an unknown id, otherwise
delete every plan reported by getPlansForObjective (cascading to the
tasks of each) and finally the objective record. -/
def deleteObjective (s : Store) (id : String) : Bool × Store :=
  if mapHas s.objectives id then
    let plans := getPlansForObjective s id
    let s1 := plans.foldl (fun st p => (deletePlan st p.id).2) s
    (true, { s1 with objectives := mapDelete s1.objectives id })
  else (false, s)

/-- Per-task input inside a plans/create request, from types.ts. -/
structure TaskInput where
  name : String
  description : Option String := none
  dependencies : Option (List String) := none
deriving DecidableEq, Repr

/-- CreatePlanRequest from types.ts (store level, after the handler has
validated that objectiveId and name are present). -/
structure CreatePlanRequest where
  objectiveId : String
  name : String
  description : Option String := none
  tasks : Option (List TaskInput) := none
  dependencies : Option (List String) := none
  metadata : Option (List (String × String)) := none
deriving DecidableEq, Repr

/-- Match of a dependency string against the anchored regular expression
task-(digits): the numeric group when the string is exactly the prefix
task- followed by one or more decimal digits, none otherwise. -/
def matchTaskRef (dep : String) : Option Nat :=
  match dep.toList with
  | 't' :: 'a' :: 's' :: 'k' :: '-' :: rest =>
      if rest.isEmpty then none
      else if rest.all Char.isDigit then some (digitsToNat rest) else none
  | _ => none

/-- Dependency resolution from createPlan: a task-N reference becomes the
generated id of the N-th sibling (dropped silently when N is out of
range, as the undefined filter in the source), any other string passes
through as a literal id. -/
def resolveDeps (taskIds : List String) (deps : List String) : List String :=
  (deps.map (fun dep =>
    match matchTaskRef dep with
    | some idx => taskIds[idx]?
    | none => some dep)).reduceOption

/-- Fresh ids handed to the n tasks of one creation call, in loop order
(the taskIdMap of the source, whose keys are exactly 0 to n-1). -/
def planTaskIds (base : Nat) (n : Nat) : List String :=
  (List.range n).map (fun i => generateId "task" (base + i))

/-- Task record built for the i-th input of one creation call: the i-th
fresh id, index i, and the declared dependencies resolved against the
sibling ids. -/
def mkPlanTask (planId objectiveId : String) (taskIds : List String)
    (i : Nat) (td : TaskInput) : PlanTask :=
  { id := taskIds[i]?.getD ""
    planId := planId
    objectiveId := objectiveId
    name := td.name
    description := td.description
    taskIndex := i
    dependencies :=
      match td.dependencies with
      | some deps => resolveDeps taskIds deps
      | none => []
    a2aTaskId := none
    status := some "pending"
    metadata := [] }

/-- Body of the task-creation loop of createPlan, over the enumerated
inputs. -/
def buildPlanTasks (planId objectiveId : String) (taskIds : List String)
    (inputs : List TaskInput) : List PlanTask :=
  inputs.enum.map (fun it => mkPlanTask planId objectiveId taskIds it.1 it.2)

/-- createPlan from store.ts. The source first inserts every task with an
empty dependency list and then rewrites each task in place with its
resolved dependencies; since the per-call generated ids are distinct and
Map.set replaces in place, that two-pass scheme is inserted here as a
single pass over the already-resolved tasks, and the returned plan
carries the same resolved task records (the source arrays alias the map
entries). One timestamp call serves the whole operation. -/
def createPlan (s : Store) (data : CreatePlanRequest) : Plan × Store :=
  let now := s.clock
  let planId := generateId "plan" s.nextIdNum
  let base : Plan :=
    { id := planId
      objectiveId := data.objectiveId
      name := data.name
      description := data.description
      status := .pending
      tasks := some []
      dependencies := data.dependencies.getD []
      metadata := data.metadata.getD []
      createdAt := now
      updatedAt := now }
  let taskInputs := data.tasks.getD []
  if taskInputs.length > 0 then
    let taskIds := planTaskIds (s.nextIdNum + 1) taskInputs.length
    let planTasks := buildPlanTasks planId data.objectiveId taskIds taskInputs
    let plan := { base with tasks := some planTasks }
    (plan,
     { s with plans := mapSet s.plans planId plan
              tasks := planTasks.foldl (fun m t => mapSet m t.id t) s.tasks
              clock := s.clock + 1
              nextIdNum := s.nextIdNum + 1 + taskInputs.length })
  else
    (base,
     { s with plans := mapSet s.plans planId base
              clock := s.clock + 1
              nextIdNum := s.nextIdNum + 1 })

/-- Structured error thrown by the handler (OPTError in the source). -/
structure OPTErr where
  code : Int
  message : String
deriving DecidableEq, Repr

/-- JSON-RPC error code constants from the handler source. -/
def PARSE_ERROR : Int := -32700

/-- Invalid request error code. -/
def INVALID_REQUEST : Int := -32600

/-- Method-not-found error code. -/
def METHOD_NOT_FOUND : Int := -32601

/-- Invalid parameter error code. -/
def INVALID_PARAMS : Int := -32602

/-- Internal error code. -/
def INTERNAL_ERROR : Int := -32603

/-- Domain error code for a missing entity. -/
def NOT_FOUND : Int := -32000

/-- Domain error code for an illegal status transition. -/
def INVALID_STATE : Int := -32001

/-- Truthiness test used by the handler on required string parameters:
an absent value and the empty string are both falsy. -/
def strFalsy : Option String → Bool
  | none => true
  | some s => s.isEmpty

/-- Result of one handler method: either a thrown OPTErr or a value,
paired with the store afterwards. Every throw in the source happens
before any mutation, so error outcomes carry the incoming store. -/
abbrev HandlerResult (α : Type) := Except OPTErr α × Store

/-- GetObjectiveRequest from types.ts, with id optional at the protocol
boundary. -/
structure GetObjectiveRequest where
  id : Option String := none
  includePlans : Option Bool := none
  includeTasks : Option Bool := none
deriving DecidableEq, Repr

/-- objectivesGet from the handler: require id, look the objective up
(populated), then strip the plans field when includePlans is literally
false, and strip the tasks field of every plan when includeTasks is
literally false and the plans field is present. -/
def objectivesGet (s : Store) (params : GetObjectiveRequest) :
    HandlerResult Objective :=
  if strFalsy params.id then
    (.error ⟨INVALID_PARAMS, "Missing required parameter: id"⟩, s)
  else
    let id := params.id.getD ""
    match getObjective s id with
    | none => (.error ⟨NOT_FOUND, "Objective not found: " ++ id⟩, s)
    | some obj =>
        let obj :=
          if params.includePlans = some false then { obj with plans := none }
          else obj
        let obj :=
          if params.includeTasks = some false then
            match obj.plans with
            | some plans =>
                { obj with
                    plans := some (plans.map (fun p => { p with tasks := none })) }
            | none => obj
          else obj
        (.ok obj, s)

/-- UpdateObjectiveRequest from types.ts, with id optional at the
protocol boundary. -/
structure UpdateObjectiveRequest where
  id : Option String := none
  name : Option String := none
  description : Option String := none
  status : Option ObjectiveStatus := none
  metadata : Option (List (String × String)) := none
deriving DecidableEq, Repr

/-- Update object the handler forwards to the store: the whole request,
so the id field rides along and is discarded by the store. -/
def UpdateObjectiveRequest.toUpdates (p : UpdateObjectiveRequest) :
    ObjectiveUpdates :=
  { id := p.id
    name := p.name
    description := p.description
    status := p.status
    metadata := p.metadata }

/-- objectivesUpdate from the handler: require id; when a status change
is requested, fetch the current objective and reject an illegal
transition with INVALID_STATE before the store is touched; otherwise
forward to updateObjective and map a missing id to NOT_FOUND. -/
def objectivesUpdate (s : Store) (params : UpdateObjectiveRequest) :
    HandlerResult Objective :=
  if strFalsy params.id then
    (.error ⟨INVALID_PARAMS, "Missing required parameter: id"⟩, s)
  else
    let id := params.id.getD ""
    let check : Option OPTErr :=
      match params.status with
      | none => none
      | some st =>
          match getObjective s id with
          | none => some ⟨NOT_FOUND, "Objective not found: " ++ id⟩
          | some current =>
              if isValidObjectiveTransition current.status st then none
              else
                some ⟨INVALID_STATE,
                  "Invalid status transition: " ++ current.status.name ++
                    " → " ++ st.name⟩
    match check with
    | some e => (.error e, s)
    | none =>
        match updateObjective s id params.toUpdates with
        | (none, s1) => (.error ⟨NOT_FOUND, "Objective not found: " ++ id⟩, s1)
        | (some o, s1) => (.ok o, s1)

/-- Plans/create parameters at the protocol boundary, where objectiveId
and name may be missing. -/
structure PlansCreateParams where
  objectiveId : Option String := none
  name : Option String := none
  description : Option String := none
  tasks : Option (List TaskInput) := none
  dependencies : Option (List String) := none
  metadata : Option (List (String × String)) := none
deriving DecidableEq, Repr

/-- plansCreate from the handler: require objectiveId and name in that
order, verify the objective exists (NOT_FOUND otherwise, with no store
change), then delegate to the store createPlan. -/
def plansCreate (s : Store) (params : PlansCreateParams) :
    HandlerResult Plan :=
  if strFalsy params.objectiveId then
    (.error ⟨INVALID_PARAMS, "Missing required parameter: objectiveId"⟩, s)
  else if strFalsy params.name then
    (.error ⟨INVALID_PARAMS, "Missing required parameter: name"⟩, s)
  else
    let oid := params.objectiveId.getD ""
    match getObjective s oid with
    | none => (.error ⟨NOT_FOUND, "Objective not found: " ++ oid⟩, s)
    | some _ =>
        let (p, s1) := createPlan s
          { objectiveId := oid
            name := params.name.getD ""
            description := params.description
            tasks := params.tasks
            dependencies := params.dependencies
            metadata := params.metadata }
        (.ok p, s1)

/-- GetPlanRequest from types.ts. -/
structure GetPlanRequest where
  id : Option String := none
  includeTasks : Option Bool := none
deriving DecidableEq, Repr

/-- getPlan from store.ts: map lookup with tasks populated. -/
def getPlan (s : Store) (id : String) : Option Plan :=
  (mapGet s.plans id).map (fun p => { p with tasks := some (getTasksForPlan s id) })

/-- plansGet from the handler: require id, look the plan up (populated),
strip the tasks field when includeTasks is literally false. -/
def plansGet (s : Store) (params : GetPlanRequest) : HandlerResult Plan :=
  if strFalsy params.id then
    (.error ⟨INVALID_PARAMS, "Missing required parameter: id"⟩, s)
  else
    let id := params.id.getD ""
    match getPlan s id with
    | none => (.error ⟨NOT_FOUND, "Plan not found: " ++ id⟩, s)
    | some plan =>
        let plan :=
          if params.includeTasks = some false then { plan with tasks := none }
          else plan
        (.ok plan, s)

/-- UpdatePlanRequest from types.ts. -/
structure UpdatePlanRequest where
  id : Option String := none
  name : Option String := none
  description : Option String := none
  status : Option PlanStatus := none
  metadata : Option (List (String × String)) := none
deriving DecidableEq, Repr

/-- Update object the handler forwards to the store for a plan. -/
def UpdatePlanRequest.toUpdates (p : UpdatePlanRequest) : PlanUpdates :=
  { id := p.id
    name := p.name
    description := p.description
    status := p.status
    metadata := p.metadata }

/-- plansUpdate from the handler: require id; when a status change is
requested, reject an illegal transition with INVALID_STATE before the
store is touched; otherwise forward to updatePlan. -/
def plansUpdate (s : Store) (params : UpdatePlanRequest) :
    HandlerResult Plan :=
  if strFalsy params.id then
    (.error ⟨INVALID_PARAMS, "Missing required parameter: id"⟩, s)
  else
    let id := params.id.getD ""
    let check : Option OPTErr :=
      match params.status with
      | none => none
      | some st =>
          match getPlan s id with
          | none => some ⟨NOT_FOUND, "Plan not found: " ++ id⟩
          | some current =>
              if isValidPlanTransition current.status st then none
              else
                some ⟨INVALID_STATE,
                  "Invalid status transition: " ++ current.status.name ++
                    " → " ++ st.name⟩
    match check with
    | some e => (.error e, s)
    | none =>
        match updatePlan s id params.toUpdates with
        | (none, s1) => (.error ⟨NOT_FOUND, "Plan not found: " ++ id⟩, s1)
        | (some p, s1) => (.ok p, s1)

/-- Name of the activation header, from the extension helpers source. -/
def A2A_EXTENSIONS_HEADER : String := "X-A2A-Extensions"

/-- Identifier URI of this extension, from types.ts. -/
def OPT_EXTENSION_URI : String := "https://github.com/zeroasterisk/a2a-opt/v1"

/-- Splitting worker over the character list, accumulating the current
segment in reverse. -/
def splitCommaAux : List Char → List Char → List String
  | [], acc => [String.mk acc.reverse]
  | c :: cs, acc =>
      if c = ',' then String.mk acc.reverse :: splitCommaAux cs []
      else splitCommaAux cs (c :: acc)

/-- Split on commas, as the JavaScript split with separator comma: the
empty string yields one empty segment. -/
def splitOnComma (s : String) : List String :=
  splitCommaAux s.toList []

/-- Trim of leading and trailing whitespace, as the JavaScript trim. -/
def trimStr (s : String) : String :=
  String.mk
    (((s.toList.dropWhile Char.isWhitespace).reverse.dropWhile
        Char.isWhitespace).reverse)

/-- Lower-casing, as the JavaScript toLowerCase on ASCII header names. -/
def lowerStr (s : String) : String :=
  String.mk (s.toList.map Char.toLower)

/-- Header lookup in the Map and plain-object branches of isOPTActivated:
the exact header name first, the all-lowercase name only when the exact
name is absent (the source nullish-coalescing chain). -/
def headerValue (headers : List (String × String)) : Option String :=
  match mapGet headers A2A_EXTENSIONS_HEADER with
  | some v => some v
  | none => mapGet headers (lowerStr A2A_EXTENSIONS_HEADER)

/-- isOPTActivated from the extension helpers source, for header
collections with exact-key lookup (Map or plain object): falsy values
give false, otherwise the comma-split trimmed list must contain the
extension URI. -/
def isOPTActivated (headers : List (String × String)) : Bool :=
  match headerValue headers with
  | none => false
  | some v =>
      if v.isEmpty then false
      else ((splitOnComma v).map trimStr).contains OPT_EXTENSION_URI

/-- Objective adjacency sets transcribed from the specification text of
section 4.3 (the spec-side table for the refinement claim). -/
def objectiveAdjacencySpec : ObjectiveStatus → List ObjectiveStatus
  | .submitted => [.planning, .working, .canceled]
  | .planning => [.working, .blocked, .failed, .canceled]
  | .working => [.blocked, .completed, .failed, .canceled]
  | .blocked => [.planning, .working, .failed, .canceled]
  | .completed => []
  | .failed => [.submitted, .planning]
  | .canceled => [.submitted]

/-- Plan adjacency sets transcribed from the specification text of
section 4.3 (the spec-side table for the refinement claim). -/
def planAdjacencySpec : PlanStatus → List PlanStatus
  | .pending => [.working, .skipped]
  | .working => [.blocked, .completed, .failed]
  | .blocked => [.working, .failed, .skipped]
  | .completed => []
  | .failed => [.pending, .working]
  | .skipped => []

/-- Well-formedness of a store as maintained by every mutation path of
InMemoryOPTStore: in each entity map the keys are pairwise distinct and
each entry is keyed by the id of its record. -/
abbrev Store.WF (s : Store) : Prop :=
  (s.objectives.map Prod.fst).Nodup ∧ (∀ e ∈ s.objectives, e.1 = e.2.id) ∧
  (s.plans.map Prod.fst).Nodup ∧ (∀ e ∈ s.plans, e.1 = e.2.id) ∧
  (s.tasks.map Prod.fst).Nodup ∧ (∀ e ∈ s.tasks, e.1 = e.2.id)

/-- Store after one objective was created on an empty store. -/
def demoStore1 : Store :=
  (createObjective emptyStore "Write blog post" none none).2

/-- Store after an objective and one plan with two tasks were created. -/
def demoStore2 : Store :=
  (createPlan demoStore1
    { objectiveId := "obj-t0"
      name := "Research"
      tasks := some [{ name := "Search papers" }, { name := "Summarize" }] }).2

/-- Store after a second plan with one task was added to the objective. -/
def demoStore3 : Store :=
  (createPlan demoStore2
    { objectiveId := "obj-t0"
      name := "Writing"
      tasks := some [{ name := "Draft" }] }).2

/-- Store holding three objectives created in sequence, for the
pagination scenario. -/
def pagedStore : Store :=
  (createObjective
    (createObjective
      (createObjective emptyStore "One" none none).2 "Two" none none).2
    "Three" none none).2

/-- The objective stored in demoStore1, as a get reports it. -/
def demoObjective : Objective :=
  { id := "obj-t0"
    name := "Write blog post"
    description := none
    status := .submitted
    plans := some []
    metadata := []
    createdAt := 0
    updatedAt := 0 }

/-- First task of the Research plan in demoStore2. -/
def demoTaskA : PlanTask :=
  { id := "task-t2"
    planId := "plan-t1"
    objectiveId := "obj-t0"
    name := "Search papers"
    description := none
    taskIndex := 0
    dependencies := []
    a2aTaskId := none
    status := some "pending"
    metadata := [] }

/-- Second task of the Research plan in demoStore2. -/
def demoTaskB : PlanTask :=
  { id := "task-t3"
    planId := "plan-t1"
    objectiveId := "obj-t0"
    name := "Summarize"
    description := none
    taskIndex := 1
    dependencies := []
    a2aTaskId := none
    status := some "pending"
    metadata := [] }

/-- The Research plan stored in demoStore2, as a get reports it. -/
def demoPlanResearch : Plan :=
  { id := "plan-t1"
    objectiveId := "obj-t0"
    name := "Research"
    description := none
    status := .pending
    tasks := some [demoTaskA, demoTaskB]
    dependencies := []
    metadata := []
    createdAt := 1
    updatedAt := 1 }

/-- Objective expected after the C7 witness rename on demoStore1. -/
def renamedObjective : Objective :=
  { demoObjective with name := "Renamed", updatedAt := 1 }

/-- Store expected after the C7 witness rename on demoStore1. -/
def renamedStore : Store :=
  { objectives := [("obj-t0", renamedObjective)]
    plans := []
    tasks := []
    clock := 2
    nextIdNum := 1 }

/-- Plan expected after the C7 witness rename on demoStore2. -/
def renamedPlan : Plan :=
  { demoPlanResearch with name := "Renamed plan", updatedAt := 2 }

/-- Store expected after the C7 witness plan rename on demoStore2. -/
def renamedPlanStore : Store :=
  { objectives := [("obj-t0", demoObjective)]
    plans := [("plan-t1", renamedPlan)]
    tasks := [("task-t2", demoTaskA), ("task-t3", demoTaskB)]
    clock := 3
    nextIdNum := 4 }

/-- Task expected after the C7 witness status update on demoStore2. -/
def completedTaskA : PlanTask :=
  { demoTaskA with status := some "completed" }

/-- Store expected after the C7 witness task update on demoStore2. -/
def completedTaskStore : Store :=
  { objectives := [("obj-t0", demoObjective)]
    plans := [("plan-t1", demoPlanResearch)]
    tasks := [("task-t2", completedTaskA), ("task-t3", demoTaskB)]
    clock := 2
    nextIdNum := 4 }

/-- Request of the dependency-resolution scenario: three tasks where T1
depends on the 0th sibling and T2 on the 0th and 1st siblings. -/
def c4Request : CreatePlanRequest :=
  { objectiveId := "obj-x"
    name := "P"
    tasks := some
      [{ name := "T0" },
       { name := "T1", dependencies := some ["task-0"] },
       { name := "T2", dependencies := some ["task-0", "task-1"] }] }

/-- Expected first task of the scenario. -/
def c4Task0 : PlanTask :=
  { id := "task-t1", planId := "plan-t0", objectiveId := "obj-x"
    name := "T0", description := none, taskIndex := 0, dependencies := []
    a2aTaskId := none, status := some "pending", metadata := [] }

/-- Expected second task of the scenario. -/
def c4Task1 : PlanTask :=
  { id := "task-t2", planId := "plan-t0", objectiveId := "obj-x"
    name := "T1", description := none, taskIndex := 1
    dependencies := ["task-t1"]
    a2aTaskId := none, status := some "pending", metadata := [] }

/-- Expected third task of the scenario. -/
def c4Task2 : PlanTask :=
  { id := "task-t3", planId := "plan-t0", objectiveId := "obj-x"
    name := "T2", description := none, taskIndex := 2
    dependencies := ["task-t1", "task-t2"]
    a2aTaskId := none, status := some "pending", metadata := [] }

/-- First objective of the pagination store. -/
def pagedObjOne : Objective :=
  { id := "obj-t0", name := "One", description := none, status := .submitted
    plans := some [], metadata := [], createdAt := 0, updatedAt := 0 }

/-- Second objective of the pagination store. -/
def pagedObjTwo : Objective :=
  { id := "obj-t1", name := "Two", description := none, status := .submitted
    plans := some [], metadata := [], createdAt := 1, updatedAt := 1 }

/-- Third objective of the pagination store. -/
def pagedObjThree : Objective :=
  { id := "obj-t2", name := "Three", description := none, status := .submitted
    plans := some [], metadata := [], createdAt := 2, updatedAt := 2 }

/-- C2: on every pair of objective statuses, isValidObjectiveTransition
agrees with self-transition-or-membership in the adjacency table given
by the specification, and likewise isValidPlanTransition on plan
statuses; in particular every status may transition to itself and the
completed and skipped statuses have no outgoing edges. -/
theorem c2_transition_tables_match :
    (∀ a b : ObjectiveStatus,
        isValidObjectiveTransition a b =
          (a == b || (objectiveAdjacencySpec a).contains b)) ∧
    (∀ a b : PlanStatus,
        isValidPlanTransition a b =
          (a == b || (planAdjacencySpec a).contains b)) ∧
    (∀ a : ObjectiveStatus, isValidObjectiveTransition a a = true) ∧
    (∀ a : PlanStatus, isValidPlanTransition a a = true) ∧
    (∀ b : ObjectiveStatus, b ≠ .completed →
        isValidObjectiveTransition .completed b = false) ∧
    (∀ b : PlanStatus, b ≠ .completed →
        isValidPlanTransition .completed b = false) ∧
    (∀ b : PlanStatus, b ≠ .skipped →
        isValidPlanTransition .skipped b = false) := by
  refine ⟨?_, ?_, ?_, ?_, ?_, ?_, ?_⟩ <;> decide

/-- Witness for C2: the terminal-state conjuncts applied at concrete
statuses. -/
theorem c2_transition_tables_match_witness :
    isValidObjectiveTransition .completed .working = false ∧
    isValidPlanTransition .completed .working = false ∧
    isValidPlanTransition .skipped .pending = false :=
  ⟨c2_transition_tables_match.2.2.2.2.1 .working (by decide),
   c2_transition_tables_match.2.2.2.2.2.1 .working (by decide),
   c2_transition_tables_match.2.2.2.2.2.2 .pending (by decide)⟩

/-- C1: whenever the stored entity named by an update request has status
s and the requested status t is not a legal transition out of s,
objectives/update (and likewise plans/update) fails with an INVALID_STATE
error whose message names the attempted pair, the store is returned
unchanged, and a subsequent get of the same id still yields the entity
with status s. -/
theorem c1_invalid_transition_rejected :
    (∀ (s : Store) (p : UpdateObjectiveRequest) (id : String)
        (cur : Objective) (t : ObjectiveStatus),
        p.id = some id → id ≠ "" → p.status = some t →
        getObjective s id = some cur →
        isValidObjectiveTransition cur.status t = false →
        objectivesUpdate s p =
          (.error ⟨INVALID_STATE,
              "Invalid status transition: " ++ cur.status.name ++ " → " ++
                t.name⟩,
            s) ∧
        getObjective (objectivesUpdate s p).2 id = some cur) ∧
    (∀ (s : Store) (p : UpdatePlanRequest) (id : String) (cur : Plan)
        (t : PlanStatus),
        p.id = some id → id ≠ "" → p.status = some t →
        getPlan s id = some cur →
        isValidPlanTransition cur.status t = false →
        plansUpdate s p =
          (.error ⟨INVALID_STATE,
              "Invalid status transition: " ++ cur.status.name ++ " → " ++
                t.name⟩,
            s) ∧
        getPlan (plansUpdate s p).2 id = some cur) := by
  constructor
  · intro s p id cur t hpid hne hst hget hvalid
    have hfalsy : strFalsy (some id) = false := by
      simp only [strFalsy]
      exact (Bool.eq_false_iff).mpr (fun h => hne ((String.isEmpty_iff id).mp h))
    have hmain : objectivesUpdate s p =
        (.error ⟨INVALID_STATE,
            "Invalid status transition: " ++ cur.status.name ++ " → " ++
              t.name⟩,
          s) := by
      simp only [objectivesUpdate, hfalsy, hpid, hst, hget, hvalid,
        Option.getD_some, Bool.false_eq_true, if_false, Bool.not_eq_true]
    exact ⟨hmain, by rw [hmain]; exact hget⟩
  · intro s p id cur t hpid hne hst hget hvalid
    have hfalsy : strFalsy (some id) = false := by
      simp only [strFalsy]
      exact (Bool.eq_false_iff).mpr (fun h => hne ((String.isEmpty_iff id).mp h))
    have hmain : plansUpdate s p =
        (.error ⟨INVALID_STATE,
            "Invalid status transition: " ++ cur.status.name ++ " → " ++
              t.name⟩,
          s) := by
      simp only [plansUpdate, hfalsy, hpid, hst, hget, hvalid,
        Option.getD_some, Bool.false_eq_true, if_false, Bool.not_eq_true]
    exact ⟨hmain, by rw [hmain]; exact hget⟩

/-- Witness for C1: an objective fresh from objectives/create has status
submitted; asking for completed directly fails with INVALID_STATE and
the store still reports submitted; likewise a fresh plan (pending) asked
to jump to completed. -/
theorem c1_invalid_transition_rejected_witness :
    (objectivesUpdate demoStore1
        { id := some "obj-t0", status := some .completed } =
      (.error ⟨INVALID_STATE,
          "Invalid status transition: " ++ ObjectiveStatus.submitted.name ++
            " → " ++ ObjectiveStatus.completed.name⟩,
        demoStore1) ∧
      getObjective
        (objectivesUpdate demoStore1
          { id := some "obj-t0", status := some .completed }).2 "obj-t0" =
        some demoObjective) ∧
    (plansUpdate demoStore2 { id := some "plan-t1", status := some .completed } =
      (.error ⟨INVALID_STATE,
          "Invalid status transition: " ++ PlanStatus.pending.name ++ " → " ++
            PlanStatus.completed.name⟩,
        demoStore2) ∧
      getPlan
        (plansUpdate demoStore2
          { id := some "plan-t1", status := some .completed }).2 "plan-t1" =
        some demoPlanResearch) :=
  ⟨c1_invalid_transition_rejected.1 demoStore1
      { id := some "obj-t0", status := some .completed } "obj-t0" demoObjective
      .completed rfl (by decide) rfl (by decide) (by decide),
   c1_invalid_transition_rejected.2 demoStore2
      { id := some "plan-t1", status := some .completed } "plan-t1"
      demoPlanResearch .completed rfl (by decide) rfl (by decide) (by decide)⟩

/-- C5: plans/create with an objectiveId that names no stored Objective
fails with NOT_FOUND and leaves the store exactly as it was (so no Plan
and no PlanTask is added); a missing objectiveId, or a missing name,
fails with INVALID_PARAMS, also without touching the store. -/
theorem c5_plans_create_unknown_objective :
    (∀ (s : Store) (p : PlansCreateParams) (oid : String),
        p.objectiveId = some oid → oid ≠ "" → strFalsy p.name = false →
        getObjective s oid = none →
        plansCreate s p = (.error ⟨NOT_FOUND, "Objective not found: " ++ oid⟩, s)) ∧
    (∀ (s : Store) (p : PlansCreateParams),
        strFalsy p.objectiveId = true →
        plansCreate s p =
          (.error ⟨INVALID_PARAMS, "Missing required parameter: objectiveId"⟩, s)) ∧
    (∀ (s : Store) (p : PlansCreateParams),
        strFalsy p.objectiveId = false → strFalsy p.name = true →
        plansCreate s p =
          (.error ⟨INVALID_PARAMS, "Missing required parameter: name"⟩, s)) := by
  refine ⟨?_, ?_, ?_⟩
  · intro s p oid hoid hne hname hget
    have hfalsy : strFalsy (some oid) = false := by
      simp only [strFalsy]
      exact (Bool.eq_false_iff).mpr (fun h => hne ((String.isEmpty_iff oid).mp h))
    simp only [plansCreate, hoid, hfalsy, hname, hget, Option.getD_some,
      Bool.false_eq_true, if_false]
  · intro s p h
    simp only [plansCreate, h, if_true]
  · intro s p h1 h2
    simp only [plansCreate, h1, h2, Bool.false_eq_true, if_false, if_true]

/-- Witness for C5: a never-created objective id on the empty store, a
request missing the objectiveId, and a request missing the name. -/
theorem c5_plans_create_unknown_objective_witness :
    plansCreate emptyStore { objectiveId := some "obj-unknown", name := some "P" } =
      (.error ⟨NOT_FOUND, "Objective not found: " ++ "obj-unknown"⟩, emptyStore) ∧
    plansCreate demoStore1 { name := some "P" } =
      (.error ⟨INVALID_PARAMS, "Missing required parameter: objectiveId"⟩,
        demoStore1) ∧
    plansCreate demoStore1 { objectiveId := some "obj-t0" } =
      (.error ⟨INVALID_PARAMS, "Missing required parameter: name"⟩, demoStore1) :=
  ⟨c5_plans_create_unknown_objective.1 emptyStore
      { objectiveId := some "obj-unknown", name := some "P" } "obj-unknown"
      rfl (by decide) (by decide) (by decide),
   c5_plans_create_unknown_objective.2.1 demoStore1 { name := some "P" }
      (by decide),
   c5_plans_create_unknown_objective.2.2 demoStore1
      { objectiveId := some "obj-t0" } (by decide) (by decide)⟩

/-- Find over a cons whose head satisfies the predicate. -/
theorem find?_cons_true {α : Type} (p : α → Bool) (a : α) (l : List α)
    (h : p a = true) : List.find? p (a :: l) = some a := by
  simp [List.find?_cons, h]

/-- Find over a cons whose head fails the predicate. -/
theorem find?_cons_false {α : Type} (p : α → Bool) (a : α) (l : List α)
    (h : p a = false) : List.find? p (a :: l) = List.find? p l := by
  simp [List.find?_cons, h]

/-- Replacing an existing key rewrites exactly the entries under that
key, so a later lookup finds the new value. -/
theorem find?_map_replace {α : Type} (m : List (String × α)) (k : String)
    (v : α) (h : mapHas m k = true) :
    (m.map (fun p => if p.1 == k then (k, v) else p)).find?
      (fun p => p.1 == k) = some (k, v) := by
  induction m with
  | nil => simp [mapHas] at h
  | cons a m ih =>
      by_cases ha : (a.1 == k) = true
      · rw [List.map_cons, if_pos ha,
          find?_cons_true (fun p => p.1 == k) ((k, v) : String × α) _ (by simp)]
      · have h' : mapHas m k = true := by
          have := h
          simp only [mapHas, List.any_cons, ha, Bool.false_or] at this
          exact this
        rw [List.map_cons, if_neg ha,
          find?_cons_false (fun p => p.1 == k) a _ (Bool.eq_false_iff.mpr ha),
          ih h']

/-- Map.get after Map.set of the same key returns the stored value. -/
theorem mapGet_mapSet_self {α : Type} (m : List (String × α)) (k : String)
    (v : α) : mapGet (mapSet m k v) k = some v := by
  unfold mapSet
  by_cases h : mapHas m k = true
  · rw [if_pos h]
    unfold mapGet
    rw [find?_map_replace m k v h]
    rfl
  · rw [if_neg h]
    have hfalse : mapHas m k = false := Bool.eq_false_iff.mpr h
    have hall := List.any_eq_false.mp hfalse
    have hnone : m.find? (fun p => p.1 == k) = none :=
      List.find?_eq_none.mpr hall
    unfold mapGet
    rw [List.find?_append, hnone]
    show Option.map Prod.snd (List.find? (fun p => p.1 == k) [(k, v)]) = some v
    rw [find?_cons_true (fun p => p.1 == k) ((k, v) : String × α) _ (by simp)]
    rfl

/-- C7: a subset update can never change an entity identity or creation
timestamp: updateObjective keeps id and createdAt and stamps updatedAt
with the fresh clock; updatePlan additionally keeps objectiveId; and
updatePlanTask keeps id, planId and objectiveId. Every other supplied
field is applied, and the updated record is what the map stores. -/
theorem c7_update_immutable_fields :
    (∀ (s : Store) (id : String) (u : ObjectiveUpdates) (o1 : Objective)
        (s1 : Store),
        updateObjective s id u = (some o1, s1) →
        ∃ o0, mapGet s.objectives id = some o0 ∧
          o1.id = o0.id ∧ o1.createdAt = o0.createdAt ∧
          o1.updatedAt = s.clock ∧
          o1.name = u.name.getD o0.name ∧
          o1.description =
            (match u.description with | some d => some d | none => o0.description) ∧
          o1.status = u.status.getD o0.status ∧
          o1.plans = u.plans.getD o0.plans ∧
          o1.metadata = u.metadata.getD o0.metadata ∧
          mapGet s1.objectives id = some o1) ∧
    (∀ (s : Store) (id : String) (u : PlanUpdates) (p1 : Plan) (s1 : Store),
        updatePlan s id u = (some p1, s1) →
        ∃ p0, mapGet s.plans id = some p0 ∧
          p1.id = p0.id ∧ p1.objectiveId = p0.objectiveId ∧
          p1.createdAt = p0.createdAt ∧ p1.updatedAt = s.clock ∧
          p1.name = u.name.getD p0.name ∧
          p1.description =
            (match u.description with | some d => some d | none => p0.description) ∧
          p1.status = u.status.getD p0.status ∧
          p1.tasks = u.tasks.getD p0.tasks ∧
          p1.dependencies = u.dependencies.getD p0.dependencies ∧
          p1.metadata = u.metadata.getD p0.metadata ∧
          mapGet s1.plans id = some p1) ∧
    (∀ (s : Store) (id : String) (u : PlanTaskUpdates) (t1 : PlanTask)
        (s1 : Store),
        updatePlanTask s id u = (some t1, s1) →
        ∃ t0, mapGet s.tasks id = some t0 ∧
          t1.id = t0.id ∧ t1.planId = t0.planId ∧
          t1.objectiveId = t0.objectiveId ∧
          t1.name = u.name.getD t0.name ∧
          t1.description =
            (match u.description with | some d => some d | none => t0.description) ∧
          t1.taskIndex = u.taskIndex.getD t0.taskIndex ∧
          t1.dependencies = u.dependencies.getD t0.dependencies ∧
          t1.a2aTaskId =
            (match u.a2aTaskId with | some a => some a | none => t0.a2aTaskId) ∧
          t1.status = (match u.status with | some a => some a | none => t0.status) ∧
          t1.metadata = u.metadata.getD t0.metadata ∧
          mapGet s1.tasks id = some t1) := by
  refine ⟨?_, ?_, ?_⟩
  · intro s id u o1 s1 h
    cases hm : mapGet s.objectives id with
    | none =>
        simp only [updateObjective, hm] at h
        injection h with h1 h2
        exact Option.noConfusion h1
    | some o0 =>
        simp only [updateObjective, hm] at h
        obtain ⟨h1, h2⟩ := Prod.mk.injEq .. |>.mp h
        injection h1 with h1
        subst h1
        subst h2
        exact ⟨o0, rfl, rfl, rfl, rfl, rfl, rfl, rfl, rfl, rfl,
          mapGet_mapSet_self ..⟩
  · intro s id u p1 s1 h
    cases hm : mapGet s.plans id with
    | none =>
        simp only [updatePlan, hm] at h
        injection h with h1 h2
        exact Option.noConfusion h1
    | some p0 =>
        simp only [updatePlan, hm] at h
        obtain ⟨h1, h2⟩ := Prod.mk.injEq .. |>.mp h
        injection h1 with h1
        subst h1
        subst h2
        exact ⟨p0, rfl, rfl, rfl, rfl, rfl, rfl, rfl, rfl, rfl, rfl, rfl,
          mapGet_mapSet_self ..⟩
  · intro s id u t1 s1 h
    cases hm : mapGet s.tasks id with
    | none =>
        simp only [updatePlanTask, hm] at h
        injection h with h1 h2
        exact Option.noConfusion h1
    | some t0 =>
        simp only [updatePlanTask, hm] at h
        obtain ⟨h1, h2⟩ := Prod.mk.injEq .. |>.mp h
        injection h1 with h1
        subst h1
        subst h2
        exact ⟨t0, rfl, rfl, rfl, rfl, rfl, rfl, rfl, rfl, rfl, rfl, rfl,
          mapGet_mapSet_self ..⟩

/-- Witness for C7: updates that try to overwrite the immutable fields
(and rename or restate status) leave id, createdAt, objectiveId, planId
untouched in the stored results. -/
theorem c7_update_immutable_fields_witness :
    (∃ o0, mapGet demoStore1.objectives "obj-t0" = some o0 ∧
      renamedObjective.id = o0.id ∧ renamedObjective.createdAt = o0.createdAt ∧
      renamedObjective.updatedAt = demoStore1.clock ∧
      renamedObjective.name =
        (some "Renamed").getD o0.name ∧
      renamedObjective.description =
        (match (none : Option String) with | some d => some d | none => o0.description) ∧
      renamedObjective.status = (none : Option ObjectiveStatus).getD o0.status ∧
      renamedObjective.plans = (none : Option (Option (List Plan))).getD o0.plans ∧
      renamedObjective.metadata =
        (none : Option (List (String × String))).getD o0.metadata ∧
      mapGet renamedStore.objectives "obj-t0" = some renamedObjective) ∧
    (∃ t0, mapGet demoStore2.tasks "task-t2" = some t0 ∧
      completedTaskA.id = t0.id ∧ completedTaskA.planId = t0.planId ∧
      completedTaskA.objectiveId = t0.objectiveId ∧
      completedTaskA.name = (none : Option String).getD t0.name ∧
      completedTaskA.description =
        (match (none : Option String) with | some d => some d | none => t0.description) ∧
      completedTaskA.taskIndex = (none : Option Nat).getD t0.taskIndex ∧
      completedTaskA.dependencies =
        (none : Option (List String)).getD t0.dependencies ∧
      completedTaskA.a2aTaskId =
        (match (none : Option String) with | some a => some a | none => t0.a2aTaskId) ∧
      completedTaskA.status =
        (match (some "completed" : Option String) with
          | some a => some a | none => t0.status) ∧
      completedTaskA.metadata =
        (none : Option (List (String × String))).getD t0.metadata ∧
      mapGet completedTaskStore.tasks "task-t2" = some completedTaskA) :=
  ⟨c7_update_immutable_fields.1 demoStore1 "obj-t0"
      { id := some "evil", name := some "Renamed", createdAt := some 99
        updatedAt := some 99 }
      renamedObjective renamedStore (by decide),
   c7_update_immutable_fields.2.2 demoStore2 "task-t2"
      { planId := some "evil", status := some "completed" }
      completedTaskA completedTaskStore (by decide)⟩

/-- C8: objectives/get with includePlans=false answers with the plans
field absent; with the flag omitted or true and no stored child plans it
answers with the plans field present and empty — two distinguishable
shapes; plans/get with includeTasks=false omits the tasks field; and
objectives/get with includeTasks=false strips the tasks field from every
plan it returns. -/
theorem c8_population_flags :
    (∀ (s : Store) (p : GetObjectiveRequest) (id : String) (obj : Objective),
        p.id = some id → id ≠ "" → getObjective s id = some obj →
        p.includePlans = some false →
        ∃ o, objectivesGet s p = (.ok o, s) ∧ o.plans = none) ∧
    (∀ (s : Store) (p : GetObjectiveRequest) (id : String) (obj : Objective),
        p.id = some id → id ≠ "" → getObjective s id = some obj →
        (p.includePlans = none ∨ p.includePlans = some true) →
        getPlansForObjective s id = [] →
        ∃ o, objectivesGet s p = (.ok o, s) ∧ o.plans = some []) ∧
    (∀ (s : Store) (p : GetObjectiveRequest) (id : String) (obj : Objective),
        p.id = some id → id ≠ "" → getObjective s id = some obj →
        (p.includePlans = none ∨ p.includePlans = some true) →
        p.includeTasks = some false →
        ∃ o l, objectivesGet s p = (.ok o, s) ∧ o.plans = some l ∧
          ∀ q ∈ l, q.tasks = none) ∧
    (∀ (s : Store) (p : GetPlanRequest) (id : String) (pl : Plan),
        p.id = some id → id ≠ "" → getPlan s id = some pl →
        p.includeTasks = some false →
        ∃ q, plansGet s p = (.ok q, s) ∧ q.tasks = none) := by
  refine ⟨?_, ?_, ?_, ?_⟩
  · intro s p id obj hpid hne hget hip
    have hfalsy : strFalsy (some id) = false := by
      simp only [strFalsy]
      exact (Bool.eq_false_iff).mpr (fun h => hne ((String.isEmpty_iff id).mp h))
    by_cases hit : p.includeTasks = some false <;>
      simp [objectivesGet, hpid, hfalsy, hget, hip, hit]
  · intro s p id obj hpid hne hget hip hplans
    have hfalsy : strFalsy (some id) = false := by
      simp only [strFalsy]
      exact (Bool.eq_false_iff).mpr (fun h => hne ((String.isEmpty_iff id).mp h))
    have hobj : obj.plans = some [] := by
      cases hmg : mapGet s.objectives id with
      | none => rw [getObjective, hmg] at hget; exact Option.noConfusion hget
      | some o0 =>
          rw [getObjective, hmg] at hget
          injection hget with hget
          rw [← hget, hplans]
    have hipn : ¬ p.includePlans = some false := by
      rcases hip with hip | hip <;> simp [hip]
    by_cases hit : p.includeTasks = some false <;>
      simp [objectivesGet, hpid, hfalsy, hget, hipn, hit, hobj]
  · intro s p id obj hpid hne hget hip hit
    have hfalsy : strFalsy (some id) = false := by
      simp only [strFalsy]
      exact (Bool.eq_false_iff).mpr (fun h => hne ((String.isEmpty_iff id).mp h))
    have hobj : obj.plans = some (getPlansForObjective s id) := by
      cases hmg : mapGet s.objectives id with
      | none => rw [getObjective, hmg] at hget; exact Option.noConfusion hget
      | some o0 =>
          rw [getObjective, hmg] at hget
          injection hget with hget
          rw [← hget]
    have hipn : ¬ p.includePlans = some false := by
      rcases hip with hip | hip <;> simp [hip]
    refine ⟨{ obj with plans := some ((getPlansForObjective s id).map
        (fun q => { q with tasks := none })) },
      (getPlansForObjective s id).map (fun q => { q with tasks := none }),
      ?_, rfl, ?_⟩
    · simp [objectivesGet, hpid, hfalsy, hget, hipn, hit, hobj]
    · intro q hq
      obtain ⟨x, _, rfl⟩ := List.mem_map.mp hq
      rfl
  · intro s p id pl hpid hne hget hit
    have hfalsy : strFalsy (some id) = false := by
      simp only [strFalsy]
      exact (Bool.eq_false_iff).mpr (fun h => hne ((String.isEmpty_iff id).mp h))
    exact ⟨{ pl with tasks := none },
      by simp [plansGet, hpid, hfalsy, hget, hit], rfl⟩

/-- Witness for C8 on demoStore2: suppressing plans yields an absent
plans field; the zero-plan case on demoStore1 yields a present empty
list; task suppression strips tasks from the fetched plan and from the
plans nested under the objective. -/
theorem c8_population_flags_witness :
    (∃ o, objectivesGet demoStore2
        { id := some "obj-t0", includePlans := some false } =
          (.ok o, demoStore2) ∧ o.plans = none) ∧
    (∃ o, objectivesGet demoStore1 { id := some "obj-t0" } =
        (.ok o, demoStore1) ∧ o.plans = some []) ∧
    (∃ o l, objectivesGet demoStore2
        { id := some "obj-t0", includeTasks := some false } =
          (.ok o, demoStore2) ∧ o.plans = some l ∧ ∀ q ∈ l, q.tasks = none) ∧
    (∃ q, plansGet demoStore2
        { id := some "plan-t1", includeTasks := some false } =
          (.ok q, demoStore2) ∧ q.tasks = none) :=
  ⟨c8_population_flags.1 demoStore2
      { id := some "obj-t0", includePlans := some false } "obj-t0"
      { demoObjective with plans := some [demoPlanResearch] }
      rfl (by decide) (by decide) rfl,
   c8_population_flags.2.1 demoStore1 { id := some "obj-t0" } "obj-t0"
      demoObjective rfl (by decide) (by decide) (Or.inl rfl) (by decide),
   c8_population_flags.2.2.1 demoStore2
      { id := some "obj-t0", includeTasks := some false } "obj-t0"
      { demoObjective with plans := some [demoPlanResearch] }
      rfl (by decide) (by decide) (Or.inl rfl) rfl,
   c8_population_flags.2.2.2 demoStore2
      { id := some "plan-t1", includeTasks := some false } "plan-t1"
      demoPlanResearch rfl (by decide) (by decide) rfl⟩

/-- Counterexample for C9: the key X-A2A-EXTENSIONS matches the
extensions header name under case-insensitive comparison and its value
is exactly the extension URI, yet isOPTActivated answers false for a
Map or plain-object collection, because the source consults only the
exact header name and its all-lowercase form on those collections. -/
theorem c9_case_insensitive_key_counterexample :
    lowerStr "X-A2A-EXTENSIONS" = lowerStr A2A_EXTENSIONS_HEADER ∧
    ((splitOnComma OPT_EXTENSION_URI).map trimStr).contains OPT_EXTENSION_URI
      = true ∧
    isOPTActivated [("X-A2A-EXTENSIONS", OPT_EXTENSION_URI)] = false := by
  refine ⟨?_, ?_, ?_⟩ <;> decide

/-- C9 as amended: on Map and plain-object header collections the lookup
consults exactly two keys — the header name verbatim, then its
all-lowercase form — so isOPTActivated answers true iff that lookup
finds a value whose comma-separated, whitespace-trimmed list contains
the extension URI; a single entry under any other casing of the key is
never consulted and yields false. (On Headers instances the platform
get is case-insensitive, outside this model.) -/
theorem c9_activation_amended :
    (∀ headers, headerValue headers = none → isOPTActivated headers = false) ∧
    (∀ headers v, headerValue headers = some v →
        (isOPTActivated headers = true ↔
          ((splitOnComma v).map trimStr).contains OPT_EXTENSION_URI = true)) ∧
    (∀ (k v : String), k ≠ A2A_EXTENSIONS_HEADER →
        k ≠ lowerStr A2A_EXTENSIONS_HEADER →
        isOPTActivated [(k, v)] = false) := by
  refine ⟨?_, ?_, ?_⟩
  · intro headers h
    simp [isOPTActivated, h]
  · intro headers v h
    constructor
    · intro hact
      by_cases hv : v.isEmpty = true
      · simp [isOPTActivated, h, hv] at hact
      · simp only [isOPTActivated, h, Bool.eq_false_iff.mpr hv,
          Bool.false_eq_true, if_false] at hact
        exact hact
    · intro hmem
      have hv : v.isEmpty = false := by
        refine Bool.eq_false_iff.mpr (fun hv => ?_)
        rw [(String.isEmpty_iff v).mp hv] at hmem
        exact absurd hmem (by decide)
      simp only [isOPTActivated, h, hv, Bool.false_eq_true, if_false]
      exact hmem
  · intro k v hk1 hk2
    have hb1 : (k == A2A_EXTENSIONS_HEADER) = false := beq_eq_false_iff_ne.mpr hk1
    have hb2 : (k == lowerStr A2A_EXTENSIONS_HEADER) = false :=
      beq_eq_false_iff_ne.mpr hk2
    have h1 : mapGet [(k, v)] A2A_EXTENSIONS_HEADER = none := by
      simp [mapGet, List.find?_cons, hb1]
    have h2 : mapGet [(k, v)] (lowerStr A2A_EXTENSIONS_HEADER) = none := by
      simp [mapGet, List.find?_cons, hb2]
    simp [isOPTActivated, headerValue, h1, h2]

/-- Witness for C9 amended: the all-lowercase key is consulted and
activates, and an all-uppercase key is ignored. -/
theorem c9_activation_amended_witness :
    (isOPTActivated [("x-a2a-extensions", OPT_EXTENSION_URI)] = true ↔
      ((splitOnComma OPT_EXTENSION_URI).map trimStr).contains OPT_EXTENSION_URI
        = true) ∧
    isOPTActivated [("X-A2A-EXTENSIONS", "other")] = false :=
  ⟨c9_activation_amended.2.1 [("x-a2a-extensions", OPT_EXTENSION_URI)]
      OPT_EXTENSION_URI (by decide),
   c9_activation_amended.2.2 "X-A2A-EXTENSIONS" "other" (by decide) (by decide)⟩

/-- Sorting the filtered objectives keeps their number. -/
theorem sortedObjectives_length (s : Store) (st : Option ObjectiveStatus) :
    (sortedObjectives s st).length = (filteredObjectives s st).length :=
  (List.perm_insertionSort _ _).length_eq

/-- The sort step orders objectives by descending creation time. -/
theorem sortedObjectives_sorted (s : Store) (st : Option ObjectiveStatus) :
    (sortedObjectives s st).Pairwise (fun a b => b.createdAt ≤ a.createdAt) :=
  List.sorted_insertionSort _ _

/-- The sort step neither adds nor removes objectives. -/
theorem sortedObjectives_mem (s : Store) (st : Option ObjectiveStatus)
    (o : Objective) : o ∈ sortedObjectives s st ↔ o ∈ filteredObjectives s st :=
  (List.perm_insertionSort _ _).mem_iff

/-- A page slice is a sublist of the sorted whole. -/
theorem page_sublist (l : List Objective) (n k : Nat) :
    List.Sublist ((l.drop n).take k) l :=
  (List.take_sublist k (l.drop n)).trans (List.drop_sublist n l)

/-- C6: listObjectives treats a missing page size as 10, reports
totalSize as the size of the whole filtered set, returns pages sorted by
creation time descending whose members all come from the filtered set
(with exactly the requested status when a filter is given), treats the
page token as a numeric offset into the filtered sorted set and reports
a next token exactly when the slice ends strictly before the end; on the
three-objective store with page size 2 the first page holds the two
newest objectives and the token 2, and resuming with that token yields
the one remaining objective, no token, and totalSize 3 on both pages. -/
theorem c6_list_objectives_paging :
    (∀ (s : Store) (st : Option ObjectiveStatus) (tok : Option String),
        listObjectives s st none tok = listObjectives s st (some 10) tok) ∧
    (∀ (s : Store) (st : Option ObjectiveStatus) (psz : Option Nat)
        (tok : Option String),
        (listObjectives s st psz tok).totalSize =
          (filteredObjectives s st).length) ∧
    (∀ (s : Store) (st : Option ObjectiveStatus) (psz : Option Nat)
        (tok : Option String),
        (listObjectives s st psz tok).objectives.Pairwise
          (fun a b => b.createdAt ≤ a.createdAt)) ∧
    (∀ (s : Store) (st : Option ObjectiveStatus) (psz : Option Nat)
        (tok : Option String) (o : Objective),
        o ∈ (listObjectives s st psz tok).objectives →
        o ∈ filteredObjectives s st) ∧
    (∀ (s : Store) (f : ObjectiveStatus) (psz : Option Nat)
        (tok : Option String) (o : Objective),
        o ∈ (listObjectives s (some f) psz tok).objectives → o.status = f) ∧
    (∀ (s : Store) (st : Option ObjectiveStatus) (psz : Option Nat)
        (tok : String) (n : Nat),
        parseInt10 tok = some n →
        listObjectives s st psz (some tok) =
          { objectives := ((sortedObjectives s st).drop n).take (psz.getD 10)
            nextPageToken :=
              if n + psz.getD 10 < (filteredObjectives s st).length
              then some (Nat.repr (n + psz.getD 10)) else none
            totalSize := (filteredObjectives s st).length }) ∧
    (listObjectives pagedStore none (some 2) none =
      { objectives := [pagedObjThree, pagedObjTwo]
        nextPageToken := some "2"
        totalSize := 3 }) ∧
    (listObjectives pagedStore none (some 2) (some "2") =
      { objectives := [pagedObjOne], nextPageToken := none, totalSize := 3 }) := by
  refine ⟨?_, ?_, ?_, ?_, ?_, ?_, by decide, by decide⟩
  · intro s st tok
    rfl
  · intro s st psz tok
    cases tok with
    | none => simp [listObjectives, sortedObjectives_length]
    | some t =>
        cases hp : parseInt10 t <;>
          simp [listObjectives, hp, sortedObjectives_length]
  · intro s st psz tok
    have hs := sortedObjectives_sorted s st
    cases tok with
    | none => exact hs.sublist (page_sublist _ _ _)
    | some t =>
        cases hp : parseInt10 t with
        | none => simp [listObjectives, hp]
        | some n =>
            simp only [listObjectives, hp]
            exact hs.sublist (page_sublist _ _ _)
  · intro s st psz tok o ho
    have hmem : o ∈ sortedObjectives s st → o ∈ filteredObjectives s st :=
      fun h => (sortedObjectives_mem s st o).mp h
    cases tok with
    | none => exact hmem ((page_sublist _ _ _).subset ho)
    | some t =>
        cases hp : parseInt10 t with
        | none => simp [listObjectives, hp] at ho
        | some n =>
            simp only [listObjectives, hp] at ho
            exact hmem ((page_sublist _ _ _).subset ho)
  · intro s f psz tok o ho
    have h1 : o ∈ filteredObjectives s (some f) := by
      rcases c6aux : tok with _ | t
      · subst c6aux
        exact (sortedObjectives_mem s (some f) o).mp
          ((page_sublist _ _ _).subset ho)
      · subst c6aux
        cases hp : parseInt10 t with
        | none => simp [listObjectives, hp] at ho
        | some n =>
            simp only [listObjectives, hp] at ho
            exact (sortedObjectives_mem s (some f) o).mp
              ((page_sublist _ _ _).subset ho)
    have h2 := (List.mem_filter.mp h1).2
    exact beq_iff_eq.mp h2
  · intro s st psz tok n hp
    simp only [listObjectives, hp, sortedObjectives_length]

/-- Witness for C6: the offset characterization applied at the concrete
second page of the three-objective store. -/
theorem c6_list_objectives_paging_witness :
    listObjectives pagedStore none (some 2) (some "2") =
      { objectives := ((sortedObjectives pagedStore none).drop 2).take 2
        nextPageToken :=
          if 2 + 2 < (filteredObjectives pagedStore none).length
          then some (Nat.repr (2 + 2)) else none
        totalSize := (filteredObjectives pagedStore none).length } :=
  c6_list_objectives_paging.2.2.2.2.2.1 pagedStore none (some 2) "2" 2 (by decide)

/-- C10: a pageToken whose numeric value is at least the number of
objectives in the filtered set does not fail: listObjectives answers an
empty page with no next token while totalSize still reports the full
filtered count. -/
theorem c10_overrun_token_empty_page (s : Store) (st : Option ObjectiveStatus)
    (psz : Option Nat) (tok : String) (n : Nat)
    (hp : parseInt10 tok = some n)
    (hn : (filteredObjectives s st).length ≤ n) :
    listObjectives s st psz (some tok) =
      { objectives := []
        nextPageToken := none
        totalSize := (filteredObjectives s st).length } := by
  have hlen : (sortedObjectives s st).length ≤ n := by
    rw [sortedObjectives_length]; exact hn
  have hdrop : (sortedObjectives s st).drop n = [] :=
    List.drop_eq_nil_of_le hlen
  have hcond : ¬ (n + psz.getD 10 < (filteredObjectives s st).length) :=
    Nat.not_lt.mpr (Nat.le_trans hn (Nat.le_add_right n _))
  simp only [listObjectives, hp, hdrop, List.take_nil,
    sortedObjectives_length, if_neg hcond]

/-- Witness for C10: token 5 against the three-objective store. -/
theorem c10_overrun_token_empty_page_witness :
    listObjectives pagedStore none none (some "5") =
      { objectives := []
        nextPageToken := none
        totalSize := (filteredObjectives pagedStore none).length } :=
  c10_overrun_token_empty_page pagedStore none none "5" 5 (by decide) (by decide)

/-- The tasks built for one creation call carry, position by position,
exactly the fresh sibling ids. -/
theorem buildPlanTasks_ids (pid oid : String) (b : Nat)
    (inputs : List TaskInput) (k : Nat) :
    ((buildPlanTasks pid oid (planTaskIds b inputs.length) inputs)[k]?).map
      PlanTask.id = (planTaskIds b inputs.length)[k]? := by
  by_cases hk : k < inputs.length
  · have h1 := List.getElem?_eq_getElem hk
    have hke : inputs.enum[k]? = some (k, inputs.get ⟨k, hk⟩) := by
      rw [List.getElem?_enum, h1]; rfl
    have hpts : (buildPlanTasks pid oid (planTaskIds b inputs.length)
        inputs)[k]? = some (mkPlanTask pid oid (planTaskIds b inputs.length) k
          (inputs.get ⟨k, hk⟩)) := by
      unfold buildPlanTasks
      rw [List.getElem?_map _ _ k, hke]
      rfl
    have hid : (planTaskIds b inputs.length)[k]? =
        some (generateId "task" (b + k)) := by
      rw [planTaskIds, List.getElem?_map _ _ k, List.getElem?_range hk]
      rfl
    rw [hpts, hid]
    simp [mkPlanTask, hid]
  · have h1 : inputs[k]? = none := List.getElem?_eq_none (Nat.le_of_not_lt hk)
    have h2 : inputs.enum[k]? = none := by rw [List.getElem?_enum, h1]; rfl
    have h3 : (buildPlanTasks pid oid (planTaskIds b inputs.length)
        inputs)[k]? = none := by
      unfold buildPlanTasks
      rw [List.getElem?_map _ _ k, h2]
      rfl
    have h4 : (planTaskIds b inputs.length)[k]? = none := by
      apply List.getElem?_eq_none
      rw [planTaskIds, List.length_map, List.length_range]
      exact Nat.le_of_not_lt hk
    rw [h3, h4]
    rfl

/-- C4: in every createPlan call with a nonempty task list, the returned
plan carries one task per input, indexed in order, and each declared
dependency string is transformed thus: a placeholder task-N with N in
range becomes the generated id of the N-th task of the same call, an
out-of-range placeholder is dropped silently, and a non-matching string
is carried through as a literal id; in the concrete three-task scenario
T1 ends up depending exactly on T0 and T2 exactly on T0 and T1. -/
theorem c4_dependency_placeholder_resolution :
    (∀ (s : Store) (data : CreatePlanRequest) (inputs : List TaskInput),
        data.tasks = some inputs → inputs.length > 0 →
        ∃ pts : List PlanTask, ((createPlan s data).1).tasks = some pts ∧
          pts.length = inputs.length ∧
          (∀ (i : Nat) (td : TaskInput), inputs[i]? = some td →
            ∃ t : PlanTask, pts[i]? = some t ∧ t.taskIndex = i ∧
              t.dependencies =
                ((td.dependencies.getD []).map (fun dep =>
                  match matchTaskRef dep with
                  | some k => (pts[k]?).map PlanTask.id
                  | none => some dep)).reduceOption)) ∧
    (((createPlan emptyStore c4Request).1).tasks =
        some [c4Task0, c4Task1, c4Task2] ∧
      c4Task1.dependencies = [c4Task0.id] ∧
      c4Task2.dependencies = [c4Task0.id, c4Task1.id]) := by
  constructor
  · intro s data inputs htasks hpos
    have hget : data.tasks.getD [] = inputs := by rw [htasks]; rfl
    have hmain : ((createPlan s data).1).tasks =
        some (buildPlanTasks (generateId "plan" s.nextIdNum) data.objectiveId
          (planTaskIds (s.nextIdNum + 1) inputs.length) inputs) := by
      simp only [createPlan, hget]
      rw [if_pos hpos]
    refine ⟨_, hmain, ?_, ?_⟩
    · simp [buildPlanTasks, List.enum_length]
    · intro i td hin
      have hke : inputs.enum[i]? = some (i, td) := by
        rw [List.getElem?_enum, hin]; rfl
      have hpt : (buildPlanTasks (generateId "plan" s.nextIdNum)
          data.objectiveId (planTaskIds (s.nextIdNum + 1) inputs.length)
          inputs)[i]? =
          some (mkPlanTask (generateId "plan" s.nextIdNum) data.objectiveId
            (planTaskIds (s.nextIdNum + 1) inputs.length) i td) := by
        unfold buildPlanTasks
        rw [List.getElem?_map _ _ i, hke]
        rfl
      refine ⟨_, hpt, rfl, ?_⟩
      have hfun : (fun dep =>
          match matchTaskRef dep with
          | some k => ((buildPlanTasks (generateId "plan" s.nextIdNum)
              data.objectiveId (planTaskIds (s.nextIdNum + 1) inputs.length)
              inputs)[k]?).map PlanTask.id
          | none => some dep) =
          (fun dep =>
            match matchTaskRef dep with
            | some idx => (planTaskIds (s.nextIdNum + 1) inputs.length)[idx]?
            | none => some dep) := by
        funext dep
        cases hm : matchTaskRef dep with
        | some idx =>
            simp only [hm]
            exact buildPlanTasks_ids _ _ _ _ idx
        | none => simp only [hm]
      rw [hfun]
      cases hdeps : td.dependencies with
      | none => simp [mkPlanTask, hdeps]
      | some deps =>
          simp only [mkPlanTask, hdeps, Option.getD_some, resolveDeps]
  · refine ⟨by decide, by decide, by decide⟩

/-- Witness for C4: the general characterization applied to the middle
task of the concrete scenario, naming the resolved sibling id. -/
theorem c4_dependency_placeholder_resolution_witness :
    ∃ pts : List PlanTask,
      ((createPlan emptyStore c4Request).1).tasks = some pts ∧
      pts.length = 3 ∧
      (∀ (i : Nat) (td : TaskInput),
        ([{ name := "T0" },
          { name := "T1", dependencies := some ["task-0"] },
          { name := "T2", dependencies := some ["task-0", "task-1"] }] :
            List TaskInput)[i]? = some td →
        ∃ t : PlanTask, pts[i]? = some t ∧ t.taskIndex = i ∧
          t.dependencies =
            ((td.dependencies.getD []).map (fun dep =>
              match matchTaskRef dep with
              | some k => (pts[k]?).map PlanTask.id
              | none => some dep)).reduceOption) :=
  c4_dependency_placeholder_resolution.1 emptyStore c4Request
    [{ name := "T0" },
     { name := "T1", dependencies := some ["task-0"] },
     { name := "T2", dependencies := some ["task-0", "task-1"] }]
    rfl (by decide)

/-- Distinct keys determine their values: two entries of a map with
nodup keys that share a key carry the same value. -/
theorem nodup_keys_val_eq {α : Type} (m : List (String × α))
    (h : (m.map Prod.fst).Nodup) {k : String} {a b : α}
    (ha : (k, a) ∈ m) (hb : (k, b) ∈ m) : a = b := by
  induction m with
  | nil => cases ha
  | cons hd tl ih =>
      have hnd := List.nodup_cons.mp h
      rcases List.mem_cons.mp ha with ha1 | ha1 <;>
        rcases List.mem_cons.mp hb with hb1 | hb1
      · exact ((Prod.mk.injEq ..).mp (ha1.trans hb1.symm)).2
      · exfalso
        apply hnd.1
        have hk : hd.1 = k := by rw [← ha1]
        rw [hk]
        exact List.mem_map.mpr ⟨(k, b), hb1, rfl⟩
      · exfalso
        apply hnd.1
        have hk : hd.1 = k := by rw [← hb1]
        rw [hk]
        exact List.mem_map.mpr ⟨(k, a), ha1, rfl⟩
      · exact ih hnd.2 ha1 hb1

/-- Folding Map.delete over a list of records removes exactly the
entries keyed by one of the extracted keys. -/
theorem foldl_mapDelete_eq_filter {α β : Type} (f : β → String)
    (L : List β) (m : List (String × α)) :
    L.foldl (fun acc t => mapDelete acc (f t)) m =
      m.filter (fun e => !(L.any (fun t => e.1 == f t))) := by
  induction L generalizing m with
  | nil => simp
  | cons b L ih =>
      rw [List.foldl_cons, ih, mapDelete, List.filter_filter]
      apply List.filter_congr
      intro e _
      simp [List.any_cons, Bool.not_or, Bool.and_comm]

/-- deletePlan never touches the objectives map. -/
theorem deletePlan_objectives (s : Store) (i : String) :
    (deletePlan s i).2.objectives = s.objectives := by
  unfold deletePlan
  by_cases h : mapHas s.plans i = true
  · rw [if_pos h]
  · rw [if_neg h]

/-- deletePlan removes exactly the entry keyed by the given id from the
plans map (a missing key leaves the map equal to its filter). -/
theorem deletePlan_plans (s : Store) (i : String) :
    (deletePlan s i).2.plans = mapDelete s.plans i := by
  unfold deletePlan
  by_cases h : mapHas s.plans i = true
  · rw [if_pos h]
  · rw [if_neg h]
    rw [mapDelete, eq_comm, List.filter_eq_self]
    intro e he
    have hall := List.any_eq_false.mp (Bool.eq_false_iff.mpr h)
    simpa using hall e he

/-- Membership of the populated task list of a plan. -/
theorem mem_getTasksForPlan (s : Store) (i : String) (t : PlanTask) :
    t ∈ getTasksForPlan s i ↔
      t ∈ (s.tasks.map Prod.snd).filter (fun t => t.planId == i) := by
  unfold getTasksForPlan
  exact (List.perm_insertionSort _ _).mem_iff

/-- With well-formed task keys, deleting a present plan removes exactly
the tasks whose planId is that plan. -/
theorem deletePlan_tasks_of_has (s : Store) (i : String)
    (hWFt : ∀ e ∈ s.tasks, e.1 = e.2.id)
    (hNodup : (s.tasks.map Prod.fst).Nodup)
    (h : mapHas s.plans i = true) :
    (deletePlan s i).2.tasks = s.tasks.filter (fun e => !(e.2.planId == i)) := by
  unfold deletePlan
  rw [if_pos h]
  show (getTasksForPlan s i).foldl (fun acc t => mapDelete acc t.id) s.tasks = _
  rw [foldl_mapDelete_eq_filter PlanTask.id]
  apply List.filter_congr
  intro e he
  have hkey : ((getTasksForPlan s i).any (fun t => e.1 == t.id)) =
      (e.2.planId == i) := by
    rw [Bool.eq_iff_iff]
    constructor
    · intro hany
      obtain ⟨t, ht, hbeq⟩ := List.any_eq_true.mp hany
      have ht3 := List.mem_filter.mp ((mem_getTasksForPlan s i t).mp ht)
      obtain ⟨⟨k1, t1⟩, hmem1, hsnd⟩ := List.mem_map.mp ht3.1
      have ht1 : t1 = t := hsnd
      subst ht1
      have hk1 : k1 = t1.id := hWFt (k1, t1) hmem1
      have heid : e.1 = t1.id := beq_iff_eq.mp hbeq
      have he2 : e = (t1.id, e.2) := by rw [← heid, Prod.mk.eta]
      have he' : (t1.id, e.2) ∈ s.tasks := by rw [← he2]; exact he
      have hmem1' : (t1.id, t1) ∈ s.tasks := by rw [← hk1]; exact hmem1
      have heval : e.2 = t1 := nodup_keys_val_eq s.tasks hNodup he' hmem1'
      rw [heval]
      exact ht3.2
    · intro hp
      apply List.any_eq_true.mpr
      refine ⟨e.2, ?_, ?_⟩
      · exact (mem_getTasksForPlan s i e.2).mpr
          (List.mem_filter.mpr ⟨List.mem_map.mpr ⟨e, he, rfl⟩, hp⟩)
      · exact beq_iff_eq.mpr (hWFt e he)
  rw [hkey]

/-- Deleting an absent plan changes nothing. -/
theorem deletePlan_not_has (s : Store) (i : String)
    (h : mapHas s.plans i = false) : deletePlan s i = (false, s) := by
  unfold deletePlan
  rw [if_neg (by rw [h]; exact Bool.false_ne_true)]

/-- Deleting an absent objective changes nothing. -/
theorem deleteObjective_not_has (s : Store) (i : String)
    (h : mapHas s.objectives i = false) : deleteObjective s i = (false, s) := by
  unfold deleteObjective
  rw [if_neg (by rw [h]; exact Bool.false_ne_true)]

/-- A key distinct from the deleted one stays present. -/
theorem mapHas_mapDelete {α : Type} (m : List (String × α)) (k k1 : String)
    (h : mapHas m k1 = true) (hne : k1 ≠ k) :
    mapHas (mapDelete m k) k1 = true := by
  obtain ⟨e, he, hbeq⟩ := List.any_eq_true.mp h
  apply List.any_eq_true.mpr
  refine ⟨e, List.mem_filter.mpr ⟨he, ?_⟩, hbeq⟩
  have he1 : e.1 = k1 := beq_iff_eq.mp hbeq
  simp [he1, hne]

/-- The deleted key is gone afterwards. -/
theorem mapGet_mapDelete_self {α : Type} (m : List (String × α)) (k : String) :
    mapGet (mapDelete m k) k = none := by
  unfold mapGet mapDelete
  have hnone : List.find? (fun p => p.1 == k)
      (m.filter (fun p => !(p.1 == k))) = none := by
    rw [List.find?_eq_none]
    intro e he
    have h2 := (List.mem_filter.mp he).2
    simp only [Bool.not_eq_eq_eq_not, Bool.not_true] at h2
    simp [h2]
  rw [hnone]
  rfl

/-- deletePlan keeps the store well formed. -/
theorem deletePlan_WF (s : Store) (i : String) (h : Store.WF s) :
    Store.WF (deletePlan s i).2 := by
  obtain ⟨h1, h2, h3, h4, h5, h6⟩ := h
  by_cases hh : mapHas s.plans i = true
  · refine ⟨?_, ?_, ?_, ?_, ?_, ?_⟩
    · rw [deletePlan_objectives]; exact h1
    · rw [deletePlan_objectives]; exact h2
    · rw [deletePlan_plans]
      exact h3.sublist ((List.filter_sublist _).map Prod.fst)
    · rw [deletePlan_plans]
      intro e he
      exact h4 e (List.mem_filter.mp he).1
    · rw [deletePlan_tasks_of_has s i h6 h5 hh]
      exact h5.sublist ((List.filter_sublist _).map Prod.fst)
    · rw [deletePlan_tasks_of_has s i h6 h5 hh]
      intro e he
      exact h6 e (List.mem_filter.mp he).1
  · rw [deletePlan_not_has s i (Bool.eq_false_iff.mpr hh)]
    exact ⟨h1, h2, h3, h4, h5, h6⟩

/-- Effect of deleting a list of present plans with pairwise distinct
ids: objectives survive untouched, every surviving plan entry was
already stored and is keyed by none of the deleted ids, every surviving
task entry was already stored and belongs to none of the deleted plans,
and the store stays well formed. -/
theorem foldl_deletePlan_spec (L : List Plan) :
    ∀ (s : Store), Store.WF s →
    (∀ p ∈ L, mapHas s.plans p.id = true) →
    (L.map Plan.id).Nodup →
    (L.foldl (fun st p => (deletePlan st p.id).2) s).objectives =
      s.objectives ∧
    (∀ e ∈ (L.foldl (fun st p => (deletePlan st p.id).2) s).plans,
        e ∈ s.plans ∧ ∀ p ∈ L, e.1 ≠ p.id) ∧
    (∀ e ∈ (L.foldl (fun st p => (deletePlan st p.id).2) s).tasks,
        e ∈ s.tasks ∧ ∀ p ∈ L, e.2.planId ≠ p.id) ∧
    Store.WF (L.foldl (fun st p => (deletePlan st p.id).2) s) := by
  induction L with
  | nil =>
      intro s hWF _ _
      exact ⟨rfl, fun e he => ⟨he, by simp⟩, fun e he => ⟨he, by simp⟩, hWF⟩
  | cons p0 L ih =>
      intro s hWF hhas hnd
      have hh0 : mapHas s.plans p0.id = true := hhas p0 (List.mem_cons_self ..)
      have hWF0 : Store.WF (deletePlan s p0.id).2 := deletePlan_WF s p0.id hWF
      have hplans0 : (deletePlan s p0.id).2.plans = mapDelete s.plans p0.id :=
        deletePlan_plans s p0.id
      have htasks0 : (deletePlan s p0.id).2.tasks =
          s.tasks.filter (fun e => !(e.2.planId == p0.id)) :=
        deletePlan_tasks_of_has s p0.id hWF.2.2.2.2.2 hWF.2.2.2.2.1 hh0
      have hobj0 : (deletePlan s p0.id).2.objectives = s.objectives :=
        deletePlan_objectives s p0.id
      have hndL : (L.map Plan.id).Nodup := (List.nodup_cons.mp hnd).2
      have hp0notin : p0.id ∉ L.map Plan.id := (List.nodup_cons.mp hnd).1
      have hhasL : ∀ p ∈ L, mapHas (deletePlan s p0.id).2.plans p.id = true := by
        intro p hp
        rw [hplans0]
        refine mapHas_mapDelete _ _ _
          (hhas p (List.mem_cons_of_mem _ hp)) (fun he => ?_)
        exact hp0notin (List.mem_map.mpr ⟨p, hp, he⟩)
      obtain ⟨ih1, ih2, ih3, ih4⟩ := ih (deletePlan s p0.id).2 hWF0 hhasL hndL
      rw [List.foldl_cons]
      refine ⟨?_, ?_, ?_, ih4⟩
      · rw [ih1, hobj0]
      · intro e he
        obtain ⟨he0, heL⟩ := ih2 e he
        rw [hplans0] at he0
        have hef := List.mem_filter.mp he0
        refine ⟨hef.1, ?_⟩
        intro p hp
        rcases List.mem_cons.mp hp with hp | hp
        · subst hp
          have hb := hef.2
          simp only [Bool.not_eq_eq_eq_not, Bool.not_true] at hb
          exact beq_eq_false_iff_ne.mp hb
        · exact heL p hp
      · intro e he
        obtain ⟨he0, heL⟩ := ih3 e he
        rw [htasks0] at he0
        have hef := List.mem_filter.mp he0
        refine ⟨hef.1, ?_⟩
        intro p hp
        rcases List.mem_cons.mp hp with hp | hp
        · subst hp
          have hb := hef.2
          simp only [Bool.not_eq_eq_eq_not, Bool.not_true] at hb
          exact beq_eq_false_iff_ne.mp hb
        · exact heL p hp

/-- Membership of the populated plan list of an objective. -/
theorem mem_getPlansForObjective (s : Store) (oid : String) (p : Plan) :
    p ∈ getPlansForObjective s oid ↔
      p ∈ ((s.plans.map Prod.snd).filter
          (fun q => q.objectiveId == oid)).map
        (fun q => { q with tasks := some (getTasksForPlan s q.id) }) := by
  unfold getPlansForObjective
  exact (List.perm_insertionSort _ _).mem_iff

/-- C3: on a well-formed store, deleting a present Objective returns
true and leaves no Plan of that objective and no PlanTask of any of
those Plans reachable (touching nothing else: every surviving plan and
task entry was already stored); deleting a present Plan returns true,
removes exactly that plan entry and exactly the tasks whose planId is
that plan, and leaves the objectives map untouched; deleting an unknown
objective or plan id returns false and changes nothing. -/
theorem c3_cascade_delete :
    (∀ (s : Store) (id : String), Store.WF s → mapHas s.objectives id = true →
        (deleteObjective s id).1 = true ∧
        mapGet (deleteObjective s id).2.objectives id = none ∧
        (∀ e ∈ (deleteObjective s id).2.plans, e.2.objectiveId ≠ id) ∧
        (∀ e ∈ (deleteObjective s id).2.tasks, ∀ q ∈ s.plans,
            q.2.objectiveId = id → e.2.planId ≠ q.2.id) ∧
        (∀ e ∈ (deleteObjective s id).2.plans, e ∈ s.plans) ∧
        (∀ e ∈ (deleteObjective s id).2.tasks, e ∈ s.tasks)) ∧
    (∀ (s : Store) (id : String), Store.WF s → mapHas s.plans id = true →
        (deletePlan s id).1 = true ∧
        (deletePlan s id).2.plans = mapDelete s.plans id ∧
        (deletePlan s id).2.tasks =
          s.tasks.filter (fun e => !(e.2.planId == id)) ∧
        (deletePlan s id).2.objectives = s.objectives) ∧
    (∀ (s : Store) (id : String), mapHas s.objectives id = false →
        deleteObjective s id = (false, s)) ∧
    (∀ (s : Store) (id : String), mapHas s.plans id = false →
        deletePlan s id = (false, s)) := by
  refine ⟨?_, ?_, fun s id h => deleteObjective_not_has s id h,
    fun s id h => deletePlan_not_has s id h⟩
  swap
  · intro s id hWF hhas
    refine ⟨?_, deletePlan_plans s id,
      deletePlan_tasks_of_has s id hWF.2.2.2.2.2 hWF.2.2.2.2.1 hhas,
      deletePlan_objectives s id⟩
    unfold deletePlan
    rw [if_pos hhas]
  · intro s id hWF hhas
    have hfact : ∀ p ∈ getPlansForObjective s id,
        mapHas s.plans p.id = true ∧ p.objectiveId = id := by
      intro p hp
      obtain ⟨q, hq, hpop⟩ :=
        List.mem_map.mp ((mem_getPlansForObjective s id p).mp hp)
      have hqf := List.mem_filter.mp hq
      obtain ⟨e, he, hsnd⟩ := List.mem_map.mp hqf.1
      have hpid : p.id = q.id := by rw [← hpop]
      have hpoid : p.objectiveId = q.objectiveId := by rw [← hpop]
      constructor
      · apply List.any_eq_true.mpr
        refine ⟨e, he, ?_⟩
        have hk : e.1 = e.2.id := hWF.2.2.2.1 e he
        rw [hpid]
        apply beq_iff_eq.mpr
        rw [hk, hsnd]
      · rw [hpoid]
        exact beq_iff_eq.mp hqf.2
    have hvals : (s.plans.map Prod.snd).map Plan.id = s.plans.map Prod.fst := by
      rw [List.map_map]
      apply List.map_congr_left
      intro e he
      exact (hWF.2.2.2.1 e he).symm
    have hnd : ((getPlansForObjective s id).map Plan.id).Nodup := by
      have hperm : List.Perm ((getPlansForObjective s id).map Plan.id)
          ((((s.plans.map Prod.snd).filter
              (fun q => q.objectiveId == id)).map
            (fun q => { q with tasks := some (getTasksForPlan s q.id) })).map
              Plan.id) :=
        (List.perm_insertionSort _ _).map Plan.id
      have hsub : List.Sublist
          (((s.plans.map Prod.snd).filter
            (fun q => q.objectiveId == id)).map Plan.id)
          ((s.plans.map Prod.snd).map Plan.id) :=
        (List.filter_sublist _).map Plan.id
      have hnd2 : ((s.plans.map Prod.snd).map Plan.id).Nodup := by
        rw [hvals]; exact hWF.2.2.1
      have hmm : (((s.plans.map Prod.snd).filter
            (fun q => q.objectiveId == id)).map
          (fun q => { q with tasks := some (getTasksForPlan s q.id) })).map
            Plan.id =
          ((s.plans.map Prod.snd).filter
            (fun q => q.objectiveId == id)).map Plan.id := by
        rw [List.map_map]
        apply List.map_congr_left
        intro q _
        rfl
      refine (hperm.nodup_iff).mpr ?_
      rw [hmm]
      exact hnd2.sublist hsub
    have hhasL : ∀ p ∈ getPlansForObjective s id, mapHas s.plans p.id = true :=
      fun p hp => (hfact p hp).1
    obtain ⟨f1, f2, f3, f4⟩ :=
      foldl_deletePlan_spec (getPlansForObjective s id) s hWF hhasL hnd
    have hres : deleteObjective s id =
        (true,
          { (getPlansForObjective s id).foldl
              (fun st p => (deletePlan st p.id).2) s with
            objectives := mapDelete
              ((getPlansForObjective s id).foldl
                (fun st p => (deletePlan st p.id).2) s).objectives id }) := by
      unfold deleteObjective
      rw [if_pos hhas]
    rw [hres]
    refine ⟨rfl, mapGet_mapDelete_self .., ?_, ?_, ?_, ?_⟩
    · intro e he
      obtain ⟨hes, hne⟩ := f2 e he
      intro heq
      have hq : e.2 ∈ (s.plans.map Prod.snd).filter
          (fun q => q.objectiveId == id) :=
        List.mem_filter.mpr ⟨List.mem_map.mpr ⟨e, hes, rfl⟩,
          beq_iff_eq.mpr heq⟩
      have hp : ({ e.2 with tasks := some (getTasksForPlan s e.2.id) } :
          Plan) ∈ getPlansForObjective s id :=
        (mem_getPlansForObjective s id _).mpr (List.mem_map.mpr ⟨e.2, hq, rfl⟩)
      exact hne _ hp (hWF.2.2.2.1 e hes)
    · intro e he q hq hqoid
      obtain ⟨hes, hne⟩ := f3 e he
      have hq2 : q.2 ∈ (s.plans.map Prod.snd).filter
          (fun r => r.objectiveId == id) :=
        List.mem_filter.mpr ⟨List.mem_map.mpr ⟨q, hq, rfl⟩,
          beq_iff_eq.mpr hqoid⟩
      have hp : ({ q.2 with tasks := some (getTasksForPlan s q.2.id) } :
          Plan) ∈ getPlansForObjective s id :=
        (mem_getPlansForObjective s id _).mpr
          (List.mem_map.mpr ⟨q.2, hq2, rfl⟩)
      exact hne ({ q.2 with tasks := some (getTasksForPlan s q.2.id) }) hp
    · intro e he
      exact (f2 e he).1
    · intro e he
      exact (f3 e he).1

/-- Witness for C3 on the store holding one objective, two plans and
three tasks: deleting the objective cascades fully, deleting one plan
removes exactly it and its tasks, and unknown ids change nothing. -/
theorem c3_cascade_delete_witness :
    ((deleteObjective demoStore3 "obj-t0").1 = true ∧
      mapGet (deleteObjective demoStore3 "obj-t0").2.objectives "obj-t0" =
        none ∧
      (∀ e ∈ (deleteObjective demoStore3 "obj-t0").2.plans,
          e.2.objectiveId ≠ "obj-t0") ∧
      (∀ e ∈ (deleteObjective demoStore3 "obj-t0").2.tasks,
          ∀ q ∈ demoStore3.plans, q.2.objectiveId = "obj-t0" →
            e.2.planId ≠ q.2.id) ∧
      (∀ e ∈ (deleteObjective demoStore3 "obj-t0").2.plans,
          e ∈ demoStore3.plans) ∧
      (∀ e ∈ (deleteObjective demoStore3 "obj-t0").2.tasks,
          e ∈ demoStore3.tasks)) ∧
    ((deletePlan demoStore3 "plan-t1").1 = true ∧
      (deletePlan demoStore3 "plan-t1").2.plans =
        mapDelete demoStore3.plans "plan-t1" ∧
      (deletePlan demoStore3 "plan-t1").2.tasks =
        demoStore3.tasks.filter (fun e => !(e.2.planId == "plan-t1")) ∧
      (deletePlan demoStore3 "plan-t1").2.objectives =
        demoStore3.objectives) ∧
    deleteObjective demoStore3 "obj-missing" = (false, demoStore3) ∧
    deletePlan demoStore3 "plan-missing" = (false, demoStore3) :=
  ⟨c3_cascade_delete.1 demoStore3 "obj-t0" (by decide) (by decide),
   c3_cascade_delete.2.1 demoStore3 "plan-t1" (by decide) (by decide),
   c3_cascade_delete.2.2.1 demoStore3 "obj-missing" (by decide),
   c3_cascade_delete.2.2.2 demoStore3 "plan-missing" (by decide)⟩

end OPT
